import Mathlib

/-!
Verification of the MERN blog platform: a shallow embedding of the REST
route handlers for posts and categories (server/routes/posts.js,
server/routes/categories.js) and of the client-side session reducer
(AuthContext.js), together with theorems settling the specified
properties of the post/category/comment consistency logic, the
authorization behaviour, search, and the session state machine.

Modelling conventions:
- Mongo documents become Lean structures; a collection is a list of
  documents; ObjectId becomes Nat; fields not consulted by any handler
  under verification (slug, description, excerpt, viewCount, createdAt,
  email) are omitted.
- Title, content and tags are lists of characters so that the search
  semantics can be stated character by character; display-only strings
  (names, avatars, error messages) are Lean strings.
- Each route handler becomes a pure function from a store and request to
  a response paired with the resulting store; the HTTP status and JSON
  envelope are modelled by the ApiResult type.
-/

namespace MernBlog

/-- A category document: id, name and the denormalized count of posts that
reference the category. The count is an integer, as in JavaScript, so that
the clamp in the delete handler is visible rather than implicit. -/
structure Category where
  id : Nat
  name : String
  postCount : Int
  deriving Repr, DecidableEq

/-- A comment embedded in a post: content and the id of the commenting
user (posts.js lines 227-230 push exactly these two fields). -/
structure Comment where
  content : String
  user : Nat
  deriving Repr, DecidableEq

/-- A post document with the fields the handlers read or write. -/
structure Post where
  id : Nat
  title : List Char
  content : List Char
  tags : List (List Char)
  author : Nat
  category : Nat
  comments : List Comment
  deriving Repr, DecidableEq

/-- A user: id, display fields selected by populate, and role. -/
structure User where
  id : Nat
  name : String
  avatar : String
  role : String
  deriving Repr, DecidableEq

/-- The document store backing the routes, plus a counter supplying the
next generated post id. -/
structure Store where
  categories : List Category
  posts : List Post
  users : List User
  nextId : Nat
  deriving Repr, DecidableEq

/-- A JSON response: ok carries the HTTP status and the data payload of a
success envelope, err carries the status and the error string of a failure
envelope. -/
inductive ApiResult (α : Type) where
  | ok (status : Nat) (data : α)
  | err (status : Nat) (error : String)
  deriving Repr, DecidableEq

/-- The HTTP status of a response. -/
def ApiResult.status : ApiResult α → Nat
  | .ok s _ => s
  | .err s _ => s

/-- The success flag of the response envelope. -/
def ApiResult.success : ApiResult α → Bool
  | .ok _ _ => true
  | .err _ _ => false

/-- Category.findById: first category with the given id. -/
def findCategory (cats : List Category) (i : Nat) : Option Category :=
  cats.find? (fun c => c.id = i)

/-- Post.findById: first post with the given id. -/
def findPost (posts : List Post) (i : Nat) : Option Post :=
  posts.find? (fun p => p.id = i)

/-- User.findById: first user with the given id. -/
def findUser (users : List User) (i : Nat) : Option User :=
  users.find? (fun u => u.id = i)

/-- Modelled from the spec: the authorize middleware of
server/middleware/auth.js, which is not among the provided sources. Spec
4.3: for admin-restricted operations the role of the caller must equal the
required role, else the request fails with Forbidden; spec 6 and 7 map
Forbidden to HTTP 401. The protect middleware is modelled by the handlers
taking an authenticated caller as an argument. Returns none when the check
passes and the failing response otherwise. -/
def authorize (required : String) (caller : User) : Option (Nat × String) :=
  if caller.role = required then none else some (401, "Forbidden")

/-- The body of a POST /api/posts request: the fields the handler reads.
The express-validator rules require title, content and category to be
non-empty; category presence is structural here (it is an id). -/
structure CreatePostReq where
  title : List Char
  content : List Char
  tags : List (List Char)
  category : Nat
  deriving Repr, DecidableEq

/-- POST /api/posts (posts.js lines 67-112). Middleware protect and
authorize admin, then express-validator notEmpty on title and content,
then the category lookup returning status 400 with error Category not
found when absent, then Post.create with author set to the caller id,
then the increment of postCount on the referenced category. -/
def createPost (s : Store) (caller : User) (req : CreatePostReq) :
    ApiResult Post × Store :=
  match authorize "admin" caller with
  | some (st, e) => (.err st e, s)
  | none =>
    if req.title = [] ∨ req.content = [] then
      (.err 400 "Validation failed", s)
    else
      match findCategory s.categories req.category with
      | none => (.err 400 "Category not found", s)
      | some _ =>
        let post : Post :=
          { id := s.nextId, title := req.title, content := req.content,
            tags := req.tags, author := caller.id, category := req.category,
            comments := [] }
        let cats := s.categories.map (fun c =>
          if c.id = req.category then { c with postCount := c.postCount + 1 } else c)
        (.ok 201 post,
         { s with posts := s.posts ++ [post], categories := cats,
                  nextId := s.nextId + 1 })

/-- PUT /api/posts/:id (posts.js lines 117-152). Middleware protect and
authorize admin, then the lookup, then the in-handler ownership check
(author or admin), then findByIdAndUpdate applying the request body as a
field patch, modelled by a function on the found post. -/
def updatePost (s : Store) (caller : User) (postId : Nat) (patch : Post → Post) :
    ApiResult Post × Store :=
  match authorize "admin" caller with
  | some (st, e) => (.err st e, s)
  | none =>
    match findPost s.posts postId with
    | none => (.err 404 "Post not found", s)
    | some post =>
      if post.author ≠ caller.id ∧ caller.role ≠ "admin" then
        (.err 401 "Not authorized to update this post", s)
      else
        let post1 := patch post
        (.ok 200 post1,
         { s with posts := s.posts.map (fun p => if p.id = postId then post1 else p) })

/-- DELETE /api/posts/:id (posts.js lines 157-197). Middleware protect and
authorize admin, then the lookup, the in-handler ownership check, the
removal, and the decrement of postCount on the referenced category when
that category still exists, clamped at zero. -/
def deletePost (s : Store) (caller : User) (postId : Nat) :
    ApiResult Unit × Store :=
  match authorize "admin" caller with
  | some (st, e) => (.err st e, s)
  | none =>
    match findPost s.posts postId with
    | none => (.err 404 "Post not found", s)
    | some post =>
      if post.author ≠ caller.id ∧ caller.role ≠ "admin" then
        (.err 401 "Not authorized to delete this post", s)
      else
        let posts1 := s.posts.filter (fun p => p.id ≠ postId)
        let cats1 :=
          match findCategory s.categories post.category with
          | none => s.categories
          | some _ => s.categories.map (fun c =>
              if c.id = post.category then
                { c with postCount :=
                    if c.postCount - 1 < 0 then 0 else c.postCount - 1 }
              else c)
        (.ok 200 (), { s with posts := posts1, categories := cats1 })

/-- A comment as returned by the add-comment response: the refetched last
comment with its user populated with name and avatar (populate select name
avatar); a missing user populates to none. -/
structure PopulatedComment where
  content : String
  userName : Option String
  userAvatar : Option String
  deriving Repr, DecidableEq

/-- Populate one comment with the display fields of its user. -/
def populateComment (users : List User) (c : Comment) : PopulatedComment :=
  match findUser users c.user with
  | none => { content := c.content, userName := none, userAvatar := none }
  | some u => { content := c.content, userName := some u.name, userAvatar := some u.avatar }

/-- POST /api/posts/:id/comments (posts.js lines 202-251). Middleware
protect only, then express-validator notEmpty on content, then the post
lookup, then a push of a comment carrying the request content and the
caller id, a save, a refetch with comments populated, and a response
returning the last comment of the refetched post. -/
def addComment (s : Store) (caller : User) (postId : Nat) (content : String) :
    ApiResult PopulatedComment × Store :=
  if content = "" then (.err 400 "Validation failed", s)
  else
    match findPost s.posts postId with
    | none => (.err 404 "Post not found", s)
    | some post =>
      let post1 := { post with comments := post.comments ++ [⟨content, caller.id⟩] }
      let posts1 := s.posts.map (fun p => if p.id = postId then post1 else p)
      let s1 := { s with posts := posts1 }
      match findPost posts1 postId with
      | none => (.err 404 "Post not found", s1)
      | some repost =>
        match (repost.comments.map (populateComment s.users)).getLast? with
        | none => (.err 404 "Post not found", s1)
        | some last => (.ok 201 last, s1)

/-- DELETE /api/categories/:id (categories.js lines 121-154). Middleware
protect and authorize admin, then the category lookup, then the check for
posts referencing the category (Post.find on the category field), failing
with status 400 when any exist, else the removal. -/
def deleteCategory (s : Store) (caller : User) (catId : Nat) :
    ApiResult Unit × Store :=
  match authorize "admin" caller with
  | some (st, e) => (.err st e, s)
  | none =>
    match findCategory s.categories catId with
    | none => (.err 404 "Category not found", s)
    | some _ =>
      let referencing := s.posts.filter (fun p => p.category = catId)
      if referencing.length > 0 then
        (.err 400 "Cannot delete category with existing posts", s)
      else
        (.ok 200 (), { s with categories := s.categories.filter (fun c => c.id ≠ catId) })

/-- Whether pattern character p matches text character c under the
case-insensitive flag: a dot matches any character, any other pattern
character matches up to case. Models the ECMAScript and Mongo regex
semantics for the fragment in which the dot is the only metacharacter. -/
def patCharMatch (p c : Char) : Bool :=
  if p = '.' then true else p.toLower = c.toLower

/-- Whether the pattern matches a prefix of the text, character by
character, under the case-insensitive flag. -/
def matchesAt : List Char → List Char → Bool
  | [], _ => true
  | _ :: _, [] => false
  | p :: ps, c :: cs => patCharMatch p c && matchesAt ps cs

/-- Unanchored case-insensitive regex search of pattern q in text s:
true when q matches at some position. Models the Mongo regex operator
with option i (and new RegExp with flag i) for patterns drawn from the
fragment in which the dot is the only metacharacter; faithful in
particular for every pattern free of regex metacharacters. -/
def regexFindI (q : List Char) : List Char → Bool
  | [] => matchesAt q []
  | c :: cs => matchesAt q (c :: cs) || regexFindI q cs

/-- The regex metacharacters of ECMAScript patterns; a query containing
none of them is matched purely literally. -/
def regexMetaChars : List Char :=
  ['.', '*', '+', '?', '(', ')', '[', ']', '\x7b', '\x7d', '^', '$', '|', '\\']

/-- The search filter of posts.js lines 267-273: an or of a regex match on
the title, a regex match on the content, and a regex match on some tag. -/
def postMatches (q : List Char) (p : Post) : Bool :=
  regexFindI q p.title || regexFindI q p.content || p.tags.any (fun t => regexFindI q t)

/-- GET /api/posts/search (posts.js lines 256-285). An absent or empty
query is rejected with status 400; otherwise the posts matching the query
are returned. The route is public and does not change the store. -/
def searchPosts (s : Store) (q : List Char) : ApiResult (List Post) :=
  if q = [] then .err 400 "Please provide a search query"
  else .ok 200 (s.posts.filter (postMatches q))

/-- Case-insensitive literal substring occurrence: q occurs in s when the
lowercasing of q is an infix of the lowercasing of s. This is the
spec-side notion the search property compares against. -/
def occursCI (q s : List Char) : Prop :=
  (q.map Char.toLower) <:+: (s.map Char.toLower)

instance (q s : List Char) : Decidable (occursCI q s) := by
  unfold occursCI
  infer_instance

section AuthReducer

variable {α : Type}

/-- The client session state held by AuthContext.js: loading flag,
authenticated flag, current user (none models null) and last error. The
user payload type is abstract, as the reducer never inspects it. -/
structure AuthState (α : Type) where
  loading : Bool
  isAuthenticated : Bool
  user : Option α
  error : Option String
  deriving Repr, DecidableEq

/-- The actions dispatched to the session reducer. loginSuccess carries
the user payload (which in JavaScript could be null, hence Option);
loginFail carries the error message; other stands for any action type not
named in the switch, handled by the default branch. -/
inductive AuthAction (α : Type) where
  | loginStart
  | loginSuccess (payload : Option α)
  | loginFail (message : String)
  | logout
  | clearError
  | other
  deriving Repr, DecidableEq

/-- authReducer from AuthContext.js lines 200-237: a switch on the action
type, each named case spreading the previous state and overriding the
listed fields, the default case returning the state unchanged. -/
def authReducer (state : AuthState α) (action : AuthAction α) : AuthState α :=
  match action with
  | .loginStart => { state with loading := true }
  | .loginSuccess payload =>
      { state with loading := false, isAuthenticated := true, user := payload }
  | .loginFail message =>
      { state with loading := false, isAuthenticated := false, user := none,
                   error := some message }
  | .logout => { state with loading := false, isAuthenticated := false, user := none }
  | .clearError => { state with error := none }
  | .other => state

/-- The initial state passed to useReducer in AuthProvider. -/
def initialAuthState : AuthState α :=
  { loading := false, isAuthenticated := false, user := none, error := none }

/-- An action whose loginSuccess payload, if it is one, is non-null. The
two dispatch sites of LOGIN_SUCCESS in AuthProvider pass a user object. -/
def nonNullSuccess : AuthAction α → Bool
  | .loginSuccess none => false
  | _ => true

end AuthReducer

/-! ## Theorems about the session reducer -/

/-- The flag and the user agree: the state invariant of claim C9. -/
def authInv {α : Type} (s : AuthState α) : Prop :=
  s.isAuthenticated = true ↔ s.user ≠ none

/-- One reducer step preserves the invariant, provided a loginSuccess
action carries a non-null payload. -/
lemma authInv_step {α : Type} (s : AuthState α) (a : AuthAction α)
    (ha : nonNullSuccess a = true) (hs : authInv s) :
    authInv (authReducer s a) := by
  cases a with
  | loginStart => simpa [authInv, authReducer] using hs
  | loginSuccess p =>
    cases p with
    | none => simp [nonNullSuccess] at ha
    | some u => simp [authInv, authReducer]
  | loginFail m => simp [authInv, authReducer]
  | logout => simp [authInv, authReducer]
  | clearError => simpa [authInv, authReducer] using hs
  | other => simpa [authReducer] using hs

/-- The invariant is preserved along any action sequence of non-null
successes. -/
lemma authInv_foldl {α : Type} (acts : List (AuthAction α)) (s : AuthState α)
    (h : ∀ a ∈ acts, nonNullSuccess a = true) (hs : authInv s) :
    authInv (acts.foldl authReducer s) := by
  induction acts generalizing s with
  | nil => simpa using hs
  | cons a rest ih =>
    simp only [List.foldl_cons]
    exact ih _ (fun b hb => h b (List.mem_cons_of_mem a hb))
      (authInv_step s a (h a (List.mem_cons_self a rest)) hs)

/-- C8: the session reducer implements exactly the named transitions of
the session state machine. The start event sets loading and changes
nothing else; the success event clears loading, sets the authenticated
flag and stores the supplied user, leaving the error; the failure event
clears loading, the flag and the user and records the error; the logout
event clears loading, the flag and the user; the clear-error event clears
the error and changes nothing else; every unrecognized action leaves the
state unchanged. -/
theorem authReducer_named_transitions {α : Type} (s : AuthState α)
    (p : Option α) (e : String) :
    (authReducer s .loginStart).loading = true ∧
    (authReducer s .loginStart).isAuthenticated = s.isAuthenticated ∧
    (authReducer s .loginStart).user = s.user ∧
    (authReducer s .loginStart).error = s.error ∧
    (authReducer s (.loginSuccess p)).loading = false ∧
    (authReducer s (.loginSuccess p)).isAuthenticated = true ∧
    (authReducer s (.loginSuccess p)).user = p ∧
    (authReducer s (.loginSuccess p)).error = s.error ∧
    (authReducer s (.loginFail e)).loading = false ∧
    (authReducer s (.loginFail e)).isAuthenticated = false ∧
    (authReducer s (.loginFail e)).user = none ∧
    (authReducer s (.loginFail e)).error = some e ∧
    (authReducer s .logout).loading = false ∧
    (authReducer s .logout).isAuthenticated = false ∧
    (authReducer s .logout).user = none ∧
    (authReducer s .logout).error = s.error ∧
    (authReducer s .clearError).error = none ∧
    (authReducer s .clearError).loading = s.loading ∧
    (authReducer s .clearError).isAuthenticated = s.isAuthenticated ∧
    (authReducer s .clearError).user = s.user ∧
    authReducer s .other = s := by
  and_intros <;> rfl

/-- C9: in every state reachable from the initial session state by a
sequence of actions whose loginSuccess payloads are non-null, the
authenticated flag is set if and only if the user is non-null. -/
theorem authReducer_reachable_flag_iff_user {α : Type}
    (acts : List (AuthAction α)) (h : ∀ a ∈ acts, nonNullSuccess a = true) :
    ((acts.foldl authReducer initialAuthState).isAuthenticated = true ↔
      (acts.foldl authReducer initialAuthState).user ≠ none) :=
  authInv_foldl acts initialAuthState h (by simp [authInv, initialAuthState])

/-- Witness for C9 at a concrete action sequence: login start, then a
successful login with user 1, then a cleared error. -/
theorem authReducer_reachable_flag_iff_user_witness :
    (([AuthAction.loginStart, .loginSuccess (some 1), .clearError].foldl
        authReducer initialAuthState).isAuthenticated = true ↔
      (([AuthAction.loginStart, .loginSuccess (some 1), .clearError] :
          List (AuthAction Nat)).foldl authReducer initialAuthState).user ≠ none) :=
  authReducer_reachable_flag_iff_user _ (by decide)

/-! ## Theorems about post creation and deletion -/

/-- Concrete admin caller used by the witnesses. -/
def adminUser : User := ⟨1, "Alice", "alice.png", "admin"⟩

/-- Concrete non-admin caller used by the witnesses. -/
def plainUser : User := ⟨2, "Bob", "bob.png", "user"⟩

/-- Clamping an integer at zero, written as the handler writes it, equals
the maximum with zero. -/
lemma ite_neg_clamp (x : Int) : (if x - 1 < 0 then 0 else x - 1) = max (x - 1) 0 := by
  split <;> omega

/-- C2: a successful post creation increments the postCount of the
referenced category by exactly 1 and changes no other category. -/
theorem createPost_increments_postCount (s : Store) (caller : User)
    (req : CreatePostReq) (hrole : caller.role = "admin")
    (ht : req.title ≠ []) (hc : req.content ≠ [])
    (cat : Category) (hcat : findCategory s.categories req.category = some cat) :
    (createPost s caller req).1.success = true ∧
    (createPost s caller req).2.categories.length = s.categories.length ∧
    ∀ c ∈ s.categories,
      (c.id = req.category →
        { c with postCount := c.postCount + 1 } ∈ (createPost s caller req).2.categories) ∧
      (c.id ≠ req.category → c ∈ (createPost s caller req).2.categories) := by
  have hauth : authorize "admin" caller = none := by simp [authorize, hrole]
  have hval : ¬(req.title = [] ∨ req.content = []) := by
    rintro (h | h)
    · exact ht h
    · exact hc h
  simp only [createPost, hauth, hcat, if_neg hval]
  refine ⟨rfl, by simp, ?_⟩
  intro c hmem
  constructor
  · intro hid
    exact List.mem_map.mpr ⟨c, hmem, by simp [hid]⟩
  · intro hid
    exact List.mem_map.mpr ⟨c, hmem, by simp [hid]⟩

/-- Witness for C2: an admin creates a post in the category Tech of a
one-category store; the response succeeds, Tech ends at postCount 1 and
the store still holds one category. -/
theorem createPost_increments_postCount_witness :
    (createPost ⟨[⟨1, "Tech", 0⟩], [], [], 1⟩ adminUser ⟨['a'], ['b'], [], 1⟩).1.success = true ∧
    (createPost ⟨[⟨1, "Tech", 0⟩], [], [], 1⟩ adminUser ⟨['a'], ['b'], [], 1⟩).2.categories.length =
      ([⟨1, "Tech", 0⟩] : List Category).length ∧
    ∀ c ∈ ([⟨1, "Tech", 0⟩] : List Category),
      (c.id = 1 →
        { c with postCount := c.postCount + 1 } ∈
          (createPost ⟨[⟨1, "Tech", 0⟩], [], [], 1⟩ adminUser ⟨['a'], ['b'], [], 1⟩).2.categories) ∧
      (c.id ≠ 1 →
        c ∈ (createPost ⟨[⟨1, "Tech", 0⟩], [], [], 1⟩ adminUser ⟨['a'], ['b'], [], 1⟩).2.categories) :=
  createPost_increments_postCount _ adminUser _ rfl (by decide) (by decide)
    ⟨1, "Tech", 0⟩ rfl

/-- C7 counterexample: an admin creating a post against an empty category
store gets HTTP 400 with error Category not found, not the HTTP 404 the
claim states; the store is unchanged. -/
theorem createPost_missing_category_status_is_400 :
    (createPost ⟨[], [], [], 1⟩ adminUser ⟨['a'], ['b'], [], 5⟩).1 =
      .err 400 "Category not found" ∧
    (createPost ⟨[], [], [], 1⟩ adminUser ⟨['a'], ['b'], [], 5⟩).1.status ≠ 404 ∧
    (createPost ⟨[], [], [], 1⟩ adminUser ⟨['a'], ['b'], [], 5⟩).2 = ⟨[], [], [], 1⟩ := by
  refine ⟨rfl, by decide, rfl⟩

/-- C7 amended: an admin post creation referencing an absent category
fails with HTTP 400 and error Category not found, and leaves the store
unchanged, so no post is created and no postCount changes. -/
theorem createPost_missing_category_fails_400 (s : Store) (caller : User)
    (req : CreatePostReq) (hrole : caller.role = "admin")
    (ht : req.title ≠ []) (hc : req.content ≠ [])
    (hcat : findCategory s.categories req.category = none) :
    createPost s caller req = (.err 400 "Category not found", s) := by
  have hauth : authorize "admin" caller = none := by simp [authorize, hrole]
  have hval : ¬(req.title = [] ∨ req.content = []) := by
    rintro (h | h)
    · exact ht h
    · exact hc h
  simp only [createPost, hauth, hcat, if_neg hval]

/-- Witness for the amended C7 at the concrete input of the
counterexample. -/
theorem createPost_missing_category_fails_400_witness :
    createPost ⟨[], [], [], 1⟩ adminUser ⟨['a'], ['b'], [], 5⟩ =
      (.err 400 "Category not found", ⟨[], [], [], 1⟩) :=
  createPost_missing_category_fails_400 _ adminUser _ rfl (by decide) (by decide) rfl

/-- C3: an authorized deletion of an existing post whose category exists
succeeds and decrements the postCount of that category by 1, clamped at
zero, leaving every other category unchanged. -/
theorem deletePost_decrements_postCount_clamped (s : Store) (caller : User)
    (postId : Nat) (hrole : caller.role = "admin")
    (post : Post) (hpost : findPost s.posts postId = some post)
    (cat : Category) (hcat : findCategory s.categories post.category = some cat) :
    (deletePost s caller postId).1 = .ok 200 () ∧
    ∀ c ∈ s.categories,
      (c.id = post.category →
        { c with postCount := max (c.postCount - 1) 0 } ∈
          (deletePost s caller postId).2.categories) ∧
      (c.id ≠ post.category → c ∈ (deletePost s caller postId).2.categories) := by
  have hauth : authorize "admin" caller = none := by simp [authorize, hrole]
  have hown : ¬(post.author ≠ caller.id ∧ caller.role ≠ "admin") := by
    rintro ⟨-, hr⟩
    exact hr hrole
  simp only [deletePost, hauth, hpost, hcat, if_neg hown]
  refine ⟨trivial, ?_⟩
  intro c hmem
  constructor
  · intro hid
    refine List.mem_map.mpr ⟨c, hmem, ?_⟩
    rw [if_pos hid, ite_neg_clamp]
  · intro hid
    exact List.mem_map.mpr ⟨c, hmem, by simp [hid]⟩

/-- Witness for C3: deleting the only post of a store whose category Tech
has postCount 1 succeeds and brings Tech to postCount 0. -/
theorem deletePost_decrements_postCount_clamped_witness :
    (deletePost ⟨[⟨1, "Tech", 1⟩], [⟨1, ['a'], ['b'], [], 1, 1, []⟩], [], 2⟩ adminUser 1).1 =
      .ok 200 () ∧
    ∀ c ∈ ([⟨1, "Tech", 1⟩] : List Category),
      (c.id = 1 →
        { c with postCount := max (c.postCount - 1) 0 } ∈
          (deletePost ⟨[⟨1, "Tech", 1⟩], [⟨1, ['a'], ['b'], [], 1, 1, []⟩], [], 2⟩
            adminUser 1).2.categories) ∧
      (c.id ≠ 1 →
        c ∈ (deletePost ⟨[⟨1, "Tech", 1⟩], [⟨1, ['a'], ['b'], [], 1, 1, []⟩], [], 2⟩
          adminUser 1).2.categories) :=
  deletePost_decrements_postCount_clamped _ adminUser 1 rfl
    ⟨1, ['a'], ['b'], [], 1, 1, []⟩ rfl ⟨1, "Tech", 1⟩ rfl

/-- C10: an authorized deletion of an existing post whose referenced
category is absent from the category store still succeeds: the response
is a success, the post is gone, and the category collection is untouched. -/
theorem deletePost_missing_category_succeeds (s : Store) (caller : User)
    (postId : Nat) (hrole : caller.role = "admin")
    (post : Post) (hpost : findPost s.posts postId = some post)
    (hcat : findCategory s.categories post.category = none) :
    (deletePost s caller postId).1 = .ok 200 () ∧
    (deletePost s caller postId).2.categories = s.categories ∧
    findPost (deletePost s caller postId).2.posts postId = none := by
  have hauth : authorize "admin" caller = none := by simp [authorize, hrole]
  have hown : ¬(post.author ≠ caller.id ∧ caller.role ≠ "admin") := by
    rintro ⟨-, hr⟩
    exact hr hrole
  simp only [deletePost, hauth, hpost, hcat, if_neg hown]
  refine ⟨trivial, trivial, ?_⟩
  apply List.find?_eq_none.mpr
  intro p hp
  have := (List.mem_filter.mp hp).2
  simpa using this

/-- Witness for C10: deleting a post whose category id 9 is absent from a
store holding one unrelated category succeeds and leaves that category
collection as it was. -/
theorem deletePost_missing_category_succeeds_witness :
    (deletePost ⟨[⟨1, "Tech", 3⟩], [⟨1, ['a'], ['b'], [], 1, 9, []⟩], [], 2⟩ adminUser 1).1 =
      .ok 200 () ∧
    (deletePost ⟨[⟨1, "Tech", 3⟩], [⟨1, ['a'], ['b'], [], 1, 9, []⟩], [], 2⟩
        adminUser 1).2.categories = [⟨1, "Tech", 3⟩] ∧
    findPost (deletePost ⟨[⟨1, "Tech", 3⟩], [⟨1, ['a'], ['b'], [], 1, 9, []⟩], [], 2⟩
        adminUser 1).2.posts 1 = none :=
  deletePost_missing_category_succeeds _ adminUser 1 rfl
    ⟨1, ['a'], ['b'], [], 1, 9, []⟩ rfl rfl

/-! ## Theorems about the ownership check and category deletion -/

/-- C1: the update and delete routes mount the admin-only authorize
middleware, so a non-admin caller who is the author of the post is
rejected with the Forbidden response at the gate and never reaches the
in-handler ownership check; the store is unchanged. This contradicts the
author-or-admin rule of the spec, which the dead in-handler check (posts.js
lines 132 and 172) was written to implement. -/
theorem updatePost_author_rejected_by_admin_gate :
    (findPost [⟨1, ['a'], ['b'], [], 2, 1, []⟩] 1).map Post.author = some plainUser.id ∧
    plainUser.role ≠ "admin" ∧
    updatePost ⟨[⟨1, "Tech", 1⟩], [⟨1, ['a'], ['b'], [], 2, 1, []⟩], [plainUser], 2⟩
        plainUser 1 (fun p => p) =
      (.err 401 "Forbidden",
        ⟨[⟨1, "Tech", 1⟩], [⟨1, ['a'], ['b'], [], 2, 1, []⟩], [plainUser], 2⟩) ∧
    deletePost ⟨[⟨1, "Tech", 1⟩], [⟨1, ['a'], ['b'], [], 2, 1, []⟩], [plainUser], 2⟩
        plainUser 1 =
      (.err 401 "Forbidden",
        ⟨[⟨1, "Tech", 1⟩], [⟨1, ['a'], ['b'], [], 2, 1, []⟩], [plainUser], 2⟩) :=
  ⟨rfl, by decide, rfl, rfl⟩

/-- C4 counterexample, on a store reachable through the API itself: an
admin creates a post in category 1, repoints it at category 2 by an
update (which adjusts no counter), then deletes it (decrementing
category 2). Category 1 is left with postCount 1 and no referencing
post, and deleting it then succeeds and removes it, where the claim
demands a Conflict failure whenever postCount exceeds zero. -/
theorem deleteCategory_succeeds_despite_positive_postCount :
    (let s0 : Store := ⟨[⟨1, "C", 0⟩, ⟨2, "D", 0⟩], [], [adminUser], 1⟩
     let s1 := (createPost s0 adminUser ⟨['a'], ['b'], [], 1⟩).2
     let s2 := (updatePost s1 adminUser 1 (fun p => { p with category := 2 })).2
     let s3 := (deletePost s2 adminUser 1).2
     findCategory s3.categories 1 = some ⟨1, "C", 1⟩ ∧
     s3.posts = [] ∧
     (deleteCategory s3 adminUser 1).1 = .ok 200 () ∧
     findCategory (deleteCategory s3 adminUser 1).2.categories 1 = none) :=
  ⟨rfl, rfl, rfl, rfl⟩

/-- C4 amended: an admin deletion of an existing category fails with the
Conflict response (HTTP 400) exactly when some existing post references
the category — the stored postCount is not consulted — and otherwise
removes the category, leaving the others. -/
theorem deleteCategory_conflict_iff_referencing_post (s : Store) (caller : User)
    (catId : Nat) (hrole : caller.role = "admin")
    (cat : Category) (hcat : findCategory s.categories catId = some cat) :
    (s.posts.any (fun p => p.category = catId) = true →
      deleteCategory s caller catId =
        (.err 400 "Cannot delete category with existing posts", s)) ∧
    (s.posts.any (fun p => p.category = catId) = false →
      (deleteCategory s caller catId).1 = .ok 200 () ∧
      findCategory (deleteCategory s caller catId).2.categories catId = none ∧
      ∀ c ∈ s.categories, c.id ≠ catId →
        c ∈ (deleteCategory s caller catId).2.categories) := by
  have hauth : authorize "admin" caller = none := by simp [authorize, hrole]
  constructor
  · intro hany
    obtain ⟨x, hx, hpx⟩ := List.any_eq_true.mp hany
    have hpos : 0 < (s.posts.filter (fun p => p.category = catId)).length := by
      apply List.length_pos.mpr
      intro hnil
      have : x ∈ s.posts.filter (fun p => p.category = catId) :=
        List.mem_filter.mpr ⟨hx, hpx⟩
      simp [hnil] at this
    simp only [deleteCategory, hauth, hcat, if_pos hpos]
  · intro hany
    have hnil : s.posts.filter (fun p => p.category = catId) = [] := by
      rw [List.filter_eq_nil_iff]
      intro x hx
      simpa using (List.any_eq_false.mp hany) x hx
    have hneg : ¬(0 < (s.posts.filter (fun p => p.category = catId)).length) := by
      simp [hnil]
    simp only [deleteCategory, hauth, hcat, if_neg hneg]
    refine ⟨trivial, ?_, ?_⟩
    · apply List.find?_eq_none.mpr
      intro c hc
      have := (List.mem_filter.mp hc).2
      simpa using this
    · intro c hc hne
      exact List.mem_filter.mpr ⟨hc, by simpa using hne⟩

/-- Witness for the amended C4: deleting category 1, referenced by the one
stored post, fails with the Conflict response and leaves the store as it
was. -/
theorem deleteCategory_conflict_iff_referencing_post_witness :
    (([⟨1, ['a'], ['b'], [], 1, 1, []⟩] : List Post).any (fun p => p.category = 1) = true →
      deleteCategory ⟨[⟨1, "Tech", 1⟩], [⟨1, ['a'], ['b'], [], 1, 1, []⟩], [], 2⟩ adminUser 1 =
        (.err 400 "Cannot delete category with existing posts",
          ⟨[⟨1, "Tech", 1⟩], [⟨1, ['a'], ['b'], [], 1, 1, []⟩], [], 2⟩)) ∧
    (([⟨1, ['a'], ['b'], [], 1, 1, []⟩] : List Post).any (fun p => p.category = 1) = false →
      (deleteCategory ⟨[⟨1, "Tech", 1⟩], [⟨1, ['a'], ['b'], [], 1, 1, []⟩], [], 2⟩
          adminUser 1).1 = .ok 200 () ∧
      findCategory (deleteCategory ⟨[⟨1, "Tech", 1⟩], [⟨1, ['a'], ['b'], [], 1, 1, []⟩], [], 2⟩
          adminUser 1).2.categories 1 = none ∧
      ∀ c ∈ ([⟨1, "Tech", 1⟩] : List Category), c.id ≠ 1 →
        c ∈ (deleteCategory ⟨[⟨1, "Tech", 1⟩], [⟨1, ['a'], ['b'], [], 1, 1, []⟩], [], 2⟩
          adminUser 1).2.categories) :=
  deleteCategory_conflict_iff_referencing_post
    ⟨[⟨1, "Tech", 1⟩], [⟨1, ['a'], ['b'], [], 1, 1, []⟩], [], 2⟩ adminUser 1 rfl
    ⟨1, "Tech", 1⟩ rfl

/-! ## Theorems about comments -/

/-- A save modelled by mapping a replacement over the collection is seen
by a refetch of the same id: find? returns the replacement. -/
lemma findPost_map_update (posts : List Post) (postId : Nat)
    (post post1 : Post) (h : findPost posts postId = some post)
    (hid : post1.id = postId) :
    findPost (posts.map (fun p => if p.id = postId then post1 else p)) postId =
      some post1 := by
  induction posts with
  | nil => simp [findPost] at h
  | cons q qs ih =>
    by_cases hq : q.id = postId
    · simp [findPost, hq, hid]
    · have h2 : findPost qs postId = some post := by
        simpa [findPost, List.find?_cons_of_neg, hq] using h
      simpa [findPost, hq] using ih h2

/-- C5: an authenticated add-comment request with non-empty content on an
existing post, by a caller present in the user store, appends exactly one
comment at the end of the comment sequence of that post — carrying the
request content and the caller id, the earlier comments untouched — and
the response returns that comment populated with the name and avatar of
the caller. -/
theorem addComment_appends_and_returns_populated (s : Store) (caller : User)
    (postId : Nat) (content : String) (hcontent : content ≠ "")
    (post : Post) (hpost : findPost s.posts postId = some post)
    (u : User) (huser : findUser s.users caller.id = some u) :
    (addComment s caller postId content).1 =
      .ok 201 ⟨content, some u.name, some u.avatar⟩ ∧
    findPost (addComment s caller postId content).2.posts postId =
      some { post with comments := post.comments ++ [⟨content, caller.id⟩] } := by
  have hpid : post.id = postId := by
    simpa using List.find?_some hpost
  have hre := findPost_map_update s.posts postId post
    { post with comments := post.comments ++ [⟨content, caller.id⟩] } hpost
    (by simpa using hpid)
  simp only [addComment, if_neg hcontent, hpost, hre, List.map_append,
    List.map_cons, List.map_nil, List.getLast?_concat]
  exact ⟨by simp [populateComment, huser], trivial⟩

/-- Witness for C5: Bob comments hi on post 1, which already carries one
comment by user 3; the response is the populated new comment and the post
ends with both comments in order. -/
theorem addComment_appends_and_returns_populated_witness :
    (addComment ⟨[], [⟨1, ['a'], ['b'], [], 1, 1, [⟨"old", 3⟩]⟩], [plainUser], 2⟩
        plainUser 1 "hi").1 =
      .ok 201 ⟨"hi", some plainUser.name, some plainUser.avatar⟩ ∧
    findPost (addComment ⟨[], [⟨1, ['a'], ['b'], [], 1, 1, [⟨"old", 3⟩]⟩], [plainUser], 2⟩
        plainUser 1 "hi").2.posts 1 =
      some { (⟨1, ['a'], ['b'], [], 1, 1, [⟨"old", 3⟩]⟩ : Post) with
              comments := [⟨"old", 3⟩] ++ [⟨"hi", plainUser.id⟩] } :=
  addComment_appends_and_returns_populated
    ⟨[], [⟨1, ['a'], ['b'], [], 1, 1, [⟨"old", 3⟩]⟩], [plainUser], 2⟩
    plainUser 1 "hi" (by decide) ⟨1, ['a'], ['b'], [], 1, 1, [⟨"old", 3⟩]⟩ rfl
    plainUser rfl

/-! ## Theorems about search -/

/-- For a pattern free of the dot, anchored case-insensitive matching is
prefix occurrence of the lowercased pattern. -/
lemma matchesAt_iff_prefix_lower (q : List Char) :
    ∀ s : List Char, '.' ∉ q →
      (matchesAt q s = true ↔ q.map Char.toLower <+: s.map Char.toLower) := by
  induction q with
  | nil =>
    intro s _
    simp [matchesAt]
  | cons p ps ih =>
    intro s hq
    have hp : p ≠ '.' := fun h => hq (h ▸ List.mem_cons_self p ps)
    have hps : '.' ∉ ps := fun h => hq (List.mem_cons_of_mem p h)
    cases s with
    | nil => simp [matchesAt]
    | cons c cs =>
      simp [matchesAt, patCharMatch, hp, List.cons_prefix_cons, ih cs hps]

/-- For a pattern free of the dot, unanchored case-insensitive regex
search is exactly case-insensitive substring occurrence. -/
lemma regexFindI_eq_occursCI (q : List Char) (hq : '.' ∉ q) :
    ∀ s : List Char, (regexFindI q s = true ↔ occursCI q s) := by
  intro s
  induction s with
  | nil =>
    simp only [regexFindI, occursCI, List.map_nil]
    rw [matchesAt_iff_prefix_lower q [] hq]
    simp
  | cons c cs ih =>
    simp only [regexFindI, Bool.or_eq_true, occursCI, List.map_cons,
      List.infix_cons_iff]
    rw [matchesAt_iff_prefix_lower q (c :: cs) hq, ih]
    simp [occursCI]

/-- C6 amended: for a non-empty query free of regex metacharacters, the
search returns a stored post exactly when the query occurs as a
case-insensitive substring of its title, its content or one of its tags;
a query holding metacharacters is instead interpreted as a regular
expression and can match posts in which it never occurs literally. -/
theorem searchPosts_literal_query_iff_substring (s : Store) (q : List Char)
    (hq : q ≠ []) (hmeta : ∀ c ∈ q, c ∉ regexMetaChars)
    (p : Post) (hp : p ∈ s.posts) :
    searchPosts s q = .ok 200 (s.posts.filter (postMatches q)) ∧
    (p ∈ s.posts.filter (postMatches q) ↔
      occursCI q p.title ∨ occursCI q p.content ∨ ∃ t ∈ p.tags, occursCI q t) := by
  have hdot : '.' ∉ q := fun h => hmeta '.' h (by decide)
  refine ⟨by simp [searchPosts, hq], ?_⟩
  rw [List.mem_filter]
  simp only [hp, true_and, postMatches, Bool.or_eq_true, List.any_eq_true,
    regexFindI_eq_occursCI q hdot]
  tauto

/-- Witness for the amended C6: the query tE is found, up to case, in the
title of the stored post and the search returns exactly that post. -/
theorem searchPosts_literal_query_iff_substring_witness :
    searchPosts ⟨[], [⟨1, ['X', 't', 'E', 's'], ['y'], [], 1, 1, []⟩], [], 2⟩ ['T', 'e'] =
      .ok 200 (([⟨1, ['X', 't', 'E', 's'], ['y'], [], 1, 1, []⟩] : List Post).filter
        (postMatches ['T', 'e'])) ∧
    ((⟨1, ['X', 't', 'E', 's'], ['y'], [], 1, 1, []⟩ : Post) ∈
        ([⟨1, ['X', 't', 'E', 's'], ['y'], [], 1, 1, []⟩] : List Post).filter
          (postMatches ['T', 'e']) ↔
      occursCI ['T', 'e'] ['X', 't', 'E', 's'] ∨ occursCI ['T', 'e'] ['y'] ∨
        ∃ t ∈ ([] : List (List Char)), occursCI ['T', 'e'] t) :=
  searchPosts_literal_query_iff_substring
    ⟨[], [⟨1, ['X', 't', 'E', 's'], ['y'], [], 1, 1, []⟩], [], 2⟩ ['T', 'e']
    (by decide) (by decide) ⟨1, ['X', 't', 'E', 's'], ['y'], [], 1, 1, []⟩ (by decide)

/-- C6 counterexample: the query consisting of the single dot is treated
as a regex, so the search returns the stored post although a dot occurs
in no field of it; the claimed if-and-only-if substring characterization
fails, as does its absent-term consequence. -/
theorem searchPosts_dot_matches_without_occurrence :
    searchPosts ⟨[], [⟨1, ['x'], ['y'], [['z']], 1, 1, []⟩], [], 2⟩ ['.'] =
      .ok 200 [⟨1, ['x'], ['y'], [['z']], 1, 1, []⟩] ∧
    ¬ occursCI ['.'] ['x'] ∧ ¬ occursCI ['.'] ['y'] ∧ ¬ occursCI ['.'] ['z'] := by
  refine ⟨by decide, by decide, by decide, by decide⟩

end MernBlog
